import Mathlib

/-!
Shallow embedding of the admin-modules gateway found in
`src/src/pages/DivisionDetail.tsx` (the Deno edge-function part of the file,
lines 641-887): the bespoke token verifier `verifyAdminToken`, the request
handler `serve`, and its three storage actions (create / update / delete) on
`program_modules`, together with proofs of the specification claims.

External platform primitives that the source calls — `atob`, `JSON.parse`,
`crypto.subtle.digest("SHA-256", ...)` — are modelled as abstract functions
carried in an `Env` record; a call that may throw is modelled as returning
`Option` (`none` = the call threw, which the source catches).  The storage
backend (supabase tables `admins`, `programs`, `program_modules`) is modelled
as in-memory lists with the PostgREST `.single()` row-count semantics.
-/

namespace AdminGateway

/-- The `AdminTokenPayload` interface of the source (lines 649-654), as the
value actually produced by `JSON.parse`: the source performs no runtime
structural validation (`const payload: AdminTokenPayload = JSON.parse(...)`),
so a key missing from the JSON object reads back as `undefined`; each field is
therefore an `Option`. -/
structure AdminTokenPayload where
  admin_id : Option String
  user_id : Option String
  division_id : Option String
  exp : Option Int
deriving Repr, DecidableEq

/-- A row of the `admins` table, with the columns selected by the handler
(line 721: `id, is_active, division_id`). -/
structure AdminRecord where
  id : String
  is_active : Bool
  division_id : String
deriving Repr, DecidableEq

/-- A row of the `programs` table, with the columns the handler reads. -/
structure Program where
  id : String
  division_id : String
deriving Repr, DecidableEq

/-- A row of the `program_modules` table. -/
structure ProgramModule where
  id : String
  program_id : String
  module_type : String
  is_published : Bool
deriving Repr, DecidableEq

/-- The storage backend: the three tables the handler touches, plus a
counter from which the store generates ids for inserted rows. -/
structure Storage where
  admins : List AdminRecord
  programs : List Program
  program_modules : List ProgramModule
  fresh : Nat
deriving Repr, DecidableEq

/-- PostgREST `.single()`: succeeds only when the query returned exactly one
row. -/
def single {α : Type} (l : List α) : Option α :=
  match l with
  | [a] => some a
  | _ => none

/-- A `select ... .eq(...) .single()` query: filter then `single`. -/
def findSingle {α : Type} (p : α → Bool) (l : List α) : Option α :=
  single (l.filter p)

/-- JavaScript `String.prototype.split` with a one-character separator, on the
character list: the empty string splits to `[""]`, and a separator at either
end produces an empty segment, exactly as in JavaScript. -/
def jsSplitChars (sep : Char) : List Char → List (List Char)
  | [] => [[]]
  | c :: rest =>
    let groups := jsSplitChars sep rest
    if c = sep then [] :: groups
    else
      match groups with
      | [] => [[c]]
      | g :: gs => (c :: g) :: gs

/-- `token.split(".")` for a string. -/
def jsSplit (sep : Char) (s : String) : List String :=
  (jsSplitChars sep s.data).map String.mk

/-- `const [payloadBase64, signature] = token.split(".")` followed by the
`if (!payloadBase64 || !signature) return null` guard (lines 658-659): the
destructuring takes the first two elements of the split (extra segments are
ignored); a missing element is `undefined` and the empty string is falsy, so
both cases fail the guard. -/
def splitSegments (token : String) : Option (String × String) :=
  match jsSplit '.' token with
  | p :: s :: _ => if p = "" || s = "" then none else some (p, s)
  | _ => none

/-- `b.toString(16).padStart(2, "0")` (line 675): lowercase hex of a byte,
left-padded to two characters. -/
def hexByte (b : Nat) : String :=
  let s := (Nat.toDigits 16 b).asString
  if s.length < 2 then "0" ++ s else s

/-- `signatureArray.map(b => b.toString(16).padStart(2, "0")).join("")`
(line 675). -/
def hexOfBytes (bs : List Nat) : String :=
  String.join (bs.map hexByte)

/-- The sixteen characters JavaScript `toString(16)` can produce for one
digit: the digest encoding is lowercase hex. -/
def lowercaseHexDigits : List Char := "0123456789abcdef".data

/-- `payload.exp < Date.now()` (line 665) with JavaScript comparison
semantics: when `exp` is `undefined` the comparison is `false`, so a payload
with no `exp` key passes the expiry check. -/
def expiredBefore (exp : Option Int) (now : Int) : Bool :=
  match exp with
  | some e => decide (e < now)
  | none => false

/-- The ambient platform primitives of the handler: `atob` (may throw on
invalid base64: `none`), `JSON.parse` (may throw on invalid JSON: `none`;
otherwise yields the untyped-field payload), SHA-256 as a byte sequence,
`Date.now()`, and the signing secret (`SUPABASE_SERVICE_ROLE_KEY`). -/
structure Env where
  atobFn : String → Option String
  parseJson : String → Option AdminTokenPayload
  sha256bytes : String → List Nat
  now : Int
  serviceKey : String

/-- `verifyAdminToken` (lines 656-687): split the token at `.`, base64-decode
the first segment, parse it as JSON, reject if expired, recompute the digest
as lowercase hex of SHA-256 of the decoded text concatenated with the secret,
and compare with the second segment.  Every failure — including a thrown
exception from `atob` or `JSON.parse`, caught by the surrounding `try` —
yields `none`. -/
def verifyAdminToken (env : Env) (token : String) : Option AdminTokenPayload :=
  match splitSegments token with
  | none => none
  | some (payloadBase64, signature) =>
    match env.atobFn payloadBase64 with
    | none => none
    | some tokenData =>
      match env.parseJson tokenData with
      | none => none
      | some payload =>
        if expiredBefore payload.exp env.now then none
        else
          let expectedSignature := hexOfBytes (env.sha256bytes (tokenData ++ env.serviceKey))
          if signature ≠ expectedSignature then none
          else some payload

/-- The `data` object of the request body, with the fields the three action
branches read; a field absent from the JSON is `none`. -/
structure RequestData where
  id : Option String
  program_id : Option String
  module_type : Option String
  is_published : Option Bool
deriving Repr, DecidableEq

/-- A request as the handler consumes it: the `x-admin-token` header (absent
header is `none`) and the parsed JSON body `{action, data}`. -/
structure Request where
  x_admin_token : Option String
  action : String
  data : RequestData
deriving Repr, DecidableEq

/-- The JSON body of a response: `{error: msg}`, `{success: true, module}`,
or bare `{success: true}`. -/
inductive RespBody where
  | err (msg : String)
  | okModule (m : ProgramModule)
  | okOnly
deriving Repr, DecidableEq

/-- An HTTP response: status code and JSON body. -/
structure Response where
  status : Nat
  body : RespBody
deriving Repr, DecidableEq

/-- The `admins` lookup (lines 719-723): `.eq("id", adminPayload.admin_id)`
with `.single()`; an `admin_id` missing from the payload matches no row. -/
def lookupAdmin (st : Storage) (adminId : Option String) : Option AdminRecord :=
  match adminId with
  | none => none
  | some i => findSingle (fun a => a.id == i) st.admins

/-- `verifyProgramAccess` (lines 738-747): fetch the program by id with
`.single()`; a lookup error or missing row is `false`; otherwise authorized
iff the program's `division_id` equals the admin's. -/
def verifyProgramAccess (st : Storage) (divisionId : String) (programId : Option String) : Bool :=
  match programId with
  | none => false
  | some pid =>
    match findSingle (fun p => p.id == pid) st.programs with
    | none => false
    | some program => program.division_id == divisionId

/-- `data.is_published || false` (line 765): JavaScript logical-or coercion;
an absent (or `false`) value yields `false`, `true` stays `true`. -/
def jsOrFalse (b : Option Bool) : Bool := b.getD false

/-- The id the store generates for a freshly inserted row. -/
def genId (n : Nat) : String := "row-" ++ toString n

/-- The partial update object of the update branch (lines 808-809): the
`is_published` column is written only when the payload carries the field. -/
def applyPartialUpdate (m : ProgramModule) (isPub : Option Bool) : ProgramModule :=
  match isPub with
  | none => m
  | some b => { m with is_published := b }

/-- The `create` branch (lines 750-782): authorize the target program against
the admin's division, then insert a `program_modules` row and return it.
The insert-failure branch is modelled from the spec (section 4.4: a storage
constraint violation surfaces as a 400 with the storage message): the store's
schema is not under `src/`, and inserting with a missing `program_id` or
`module_type` (a null in a required column) is the constraint failure this
path can hit; it leaves storage unchanged. -/
def handleCreate (st : Storage) (divisionId : String) (d : RequestData) : Response × Storage :=
  if ¬ verifyProgramAccess st divisionId d.program_id then
    (⟨403, .err "You can only manage modules for programs in your division"⟩, st)
  else
    match d.program_id, d.module_type with
    | some pid, some mt =>
      let m : ProgramModule := ⟨genId st.fresh, pid, mt, jsOrFalse d.is_published⟩
      (⟨200, .okModule m⟩,
       { st with program_modules := st.program_modules ++ [m], fresh := st.fresh + 1 })
    | _, _ => (⟨400, .err "null value in required column"⟩, st)

/-- The `update` branch (lines 784-830): fetch the module by id with
`.single()` (missing ⇒ 404), authorize its program's division, apply the
partial update to the matching rows, and return the updated row via
`.select().single()` (a row count other than one on that read is a storage
error: 400, transaction rolled back). -/
def handleUpdate (st : Storage) (divisionId : String) (d : RequestData) : Response × Storage :=
  match d.id with
  | none => (⟨404, .err "Module not found"⟩, st)
  | some mid =>
    match findSingle (fun m => m.id == mid) st.program_modules with
    | none => (⟨404, .err "Module not found"⟩, st)
    | some existingModule =>
      if ¬ verifyProgramAccess st divisionId (some existingModule.program_id) then
        (⟨403, .err "You can only manage modules for programs in your division"⟩, st)
      else
        let updated := st.program_modules.map
          (fun m => if m.id == mid then applyPartialUpdate m d.is_published else m)
        match findSingle (fun m => m.id == mid) updated with
        | none => (⟨400, .err "JSON object requested, multiple (or no) rows returned"⟩, st)
        | some m => (⟨200, .okModule m⟩, { st with program_modules := updated })

/-- The `delete` branch (lines 832-873): fetch the module by id with
`.single()` (missing ⇒ 404), authorize its program's division, delete the
matching rows, and acknowledge with a bare success. -/
def handleDelete (st : Storage) (divisionId : String) (d : RequestData) : Response × Storage :=
  match d.id with
  | none => (⟨404, .err "Module not found"⟩, st)
  | some mid =>
    match findSingle (fun m => m.id == mid) st.program_modules with
    | none => (⟨404, .err "Module not found"⟩, st)
    | some existingModule =>
      if ¬ verifyProgramAccess st divisionId (some existingModule.program_id) then
        (⟨403, .err "You can only manage modules for programs in your division"⟩, st)
      else
        (⟨200, .okOnly⟩,
         { st with program_modules := st.program_modules.filter (fun m => !(m.id == mid)) })

/-- The `switch (action)` dispatch (lines 749, 875-880): the three known
actions, any other string ⇒ 400 Invalid action. -/
def dispatchAction (st : Storage) (divisionId : String) (action : String) (d : RequestData) :
    Response × Storage :=
  if action = "create" then handleCreate st divisionId d
  else if action = "update" then handleUpdate st divisionId d
  else if action = "delete" then handleDelete st divisionId d
  else (⟨400, .err "Invalid action"⟩, st)

/-- The handler after token verification (lines 718-747): look the admin up in
storage (lookup error, missing row, or `is_active == false` ⇒ 401), take the
division scope from the stored record (`const divisionId = admin.division_id`,
line 735 — only `adminPayload.admin_id` is ever read from the token payload),
then dispatch the action. -/
def handleAuthed (st : Storage) (p : AdminTokenPayload) (action : String) (d : RequestData) :
    Response × Storage :=
  match lookupAdmin st p.admin_id with
  | none => (⟨401, .err "Admin account not found or inactive"⟩, st)
  | some admin =>
    if ¬ admin.is_active then (⟨401, .err "Admin account not found or inactive"⟩, st)
    else dispatchAction st admin.division_id action d

/-- The request handler `serve` (lines 689-887) on a POST request: missing
`x-admin-token` header ⇒ 401, failed token verification ⇒ 401, then the
admin lookup and action dispatch. -/
def serve (env : Env) (req : Request) (st : Storage) : Response × Storage :=
  match req.x_admin_token with
  | none => (⟨401, .err "Admin token required"⟩, st)
  | some adminToken =>
    match verifyAdminToken env adminToken with
    | none => (⟨401, .err "Invalid or expired token"⟩, st)
    | some adminPayload => handleAuthed st adminPayload req.action req.data

/-! Concrete fixtures used to instantiate the theorems below on closed
inputs.  The modelled SHA-256 of the sample environment hashes everything to
the byte sequence `[171]`, whose lowercase hex encoding is `"ab"`, so a token
signed with it carries the digest segment `"ab"`. -/

/-- A well-formed decoded payload for admin `adm-1` expiring at time 1000. -/
def samplePayload1 : AdminTokenPayload :=
  ⟨some "adm-1", some "user-1", some "farmelife", some 1000⟩

/-- The same payload with a different `division_id` claim. -/
def samplePayload2 : AdminTokenPayload :=
  ⟨some "adm-1", some "user-1", some "organelife", some 1000⟩

/-- What `JSON.parse` yields on the text `"{}"`: a valid JSON object with no
keys, every field reading back `undefined`. -/
def emptyPayload : AdminTokenPayload := ⟨none, none, none, none⟩

/-- A well-formed decoded payload for the inactive admin `adm-2`. -/
def samplePayload3 : AdminTokenPayload :=
  ⟨some "adm-2", some "user-2", some "farmelife", some 1000⟩

/-- A well-formed decoded payload naming an admin id absent from storage. -/
def samplePayload4 : AdminTokenPayload :=
  ⟨some "adm-ghost", some "user-9", some "farmelife", some 1000⟩

/-- A concrete `JSON.parse`: a handful of decoded texts are valid JSON (the
well-formed payloads and the empty object), everything else throws. -/
def sampleParse (s : String) : Option AdminTokenPayload :=
  if s = "PL1" then some samplePayload1
  else if s = "PL2" then some samplePayload2
  else if s = "PL3" then some samplePayload3
  else if s = "PL4" then some samplePayload4
  else if s = "EMPTY" then some emptyPayload
  else none

/-- A concrete environment: `atob` fails on the text `"BAD64"` and is the
identity elsewhere; SHA-256 maps everything to `[171]` (hex `"ab"`); the
clock reads 500, before the sample payloads' expiry 1000. -/
def sampleEnv : Env :=
  { atobFn := fun s => if s = "BAD64" then none else some s
    parseJson := sampleParse
    sha256bytes := fun _ => [171]
    now := 500
    serviceKey := "secret" }

/-- The sample environment with the clock at exactly the sample payloads'
expiry timestamp 1000. -/
def boundaryEnv : Env := { sampleEnv with now := 1000 }

/-- The sample environment with the clock past the sample payloads' expiry. -/
def lateEnv : Env := { sampleEnv with now := 2000 }

/-- A concrete storage state: an active and an inactive admin, one program in
each of two divisions, and one module under each program. -/
def sampleStore : Storage :=
  { admins := [⟨"adm-1", true, "farmelife"⟩, ⟨"adm-2", false, "farmelife"⟩]
    programs := [⟨"prog-1", "farmelife"⟩, ⟨"prog-2", "organelife"⟩]
    program_modules := [⟨"mod-1", "prog-1", "announcement", false⟩,
                        ⟨"mod-2", "prog-2", "advertisement", true⟩]
    fresh := 7 }

/-- A request body `data` object with every field absent. -/
def emptyData : RequestData := ⟨none, none, none, none⟩

/-! Helper lemmas about the `.single()` row-count semantics. -/

/-- `single` succeeds exactly on one-element lists. -/
theorem single_eq_some_iff {α : Type} (l : List α) (a : α) :
    single l = some a ↔ l = [a] := by
  cases l with
  | nil => simp [single]
  | cons x xs =>
    cases xs with
    | nil => simp [single]
    | cons y ys => simp [single]

/-- A row returned by a `.single()` query is in the table and matches the
query predicate. -/
theorem findSingle_eq_some_imp {α : Type} (p : α → Bool) (l : List α) (a : α)
    (h : findSingle p l = some a) : a ∈ l ∧ p a = true := by
  rw [findSingle, single_eq_some_iff] at h
  have ha : a ∈ l.filter p := by rw [h]; exact List.mem_singleton_self a
  exact List.mem_filter.mp ha

/-- When the values of `f` over the table are distinct (a unique column), a
filter on one value of `f` keeps at most one row. -/
theorem filter_key_length_le_one {α : Type} (f : α → String) (l : List α)
    (h : (l.map f).Nodup) (i : String) :
    (l.filter (fun a => f a == i)).length ≤ 1 := by
  induction l with
  | nil => simp
  | cons x xs ih =>
    rw [List.map_cons, List.nodup_cons] at h
    rw [List.filter_cons]
    by_cases hx : f x = i
    · have hxs : xs.filter (fun a => f a == i) = [] := by
        rw [List.filter_eq_nil_iff]
        intro y hy hyi
        exact h.1 (by rw [hx, ← (by simpa using hyi : f y = i)]; exact List.mem_map_of_mem f hy)
      simp [hx, hxs]
    · have hxf : (f x == i) = false := by simp [hx]
      simp only [hxf, Bool.false_eq_true, if_false]
      exact ih h.2

/-- A one-element-at-most list containing `q` is exactly `[q]`. -/
theorem filter_eq_singleton_of_mem {α : Type} {xs : List α} {q : α}
    (h : q ∈ xs) (hlen : xs.length ≤ 1) : xs = [q] := by
  cases xs with
  | nil => cases h
  | cons a t =>
    cases t with
    | nil => rw [List.mem_singleton] at h; rw [h]
    | cons b t2 => simp at hlen

/-- Under a unique key column, a `.single()` lookup by key fails exactly when
no row has the key. -/
theorem findSingle_key_none_iff {α : Type} (f : α → String) (l : List α)
    (h : (l.map f).Nodup) (i : String) :
    findSingle (fun a => f a == i) l = none ↔ ∀ a ∈ l, f a ≠ i := by
  have hlen := filter_key_length_le_one f l h i
  constructor
  · intro hnone a ha hai
    have haf : a ∈ l.filter (fun a => f a == i) :=
      List.mem_filter.mpr ⟨ha, by simp [hai]⟩
    rw [findSingle, filter_eq_singleton_of_mem haf hlen] at hnone
    simp [single] at hnone
  · intro hall
    have hnil : l.filter (fun a => f a == i) = [] :=
      List.filter_eq_nil_iff.mpr (fun a ha => by simp [hall a ha])
    rw [findSingle, hnil]; rfl

/-- Under a unique key column, a `.single()` lookup by key returns exactly
the row carrying the key. -/
theorem findSingle_key_some_iff {α : Type} (f : α → String) (l : List α)
    (h : (l.map f).Nodup) (i : String) (a : α) :
    findSingle (fun x => f x == i) l = some a ↔ a ∈ l ∧ f a = i := by
  have hlen := filter_key_length_le_one f l h i
  constructor
  · intro hs
    have := findSingle_eq_some_imp _ _ _ hs
    exact ⟨this.1, by simpa using this.2⟩
  · intro hai
    rw [findSingle,
      filter_eq_singleton_of_mem (List.mem_filter.mpr ⟨hai.1, by simp [hai.2]⟩) hlen]
    rfl

/-! Helper lemmas: the recomputed digest is lowercase hex. -/

/-- A digit below 16 renders as one of the sixteen lowercase hex digits. -/
theorem digitChar_mem_lowercaseHex (n : Nat) (h : n < 16) :
    Nat.digitChar n ∈ lowercaseHexDigits := by
  interval_cases n <;> decide

/-- Every character accumulated by `Nat.toDigitsCore` in base 16 is a
lowercase hex digit, as long as the accumulator only holds such digits. -/
theorem toDigitsCore_mem_lowercaseHex (fuel : Nat) : ∀ (n : Nat) (ds : List Char),
    (∀ c ∈ ds, c ∈ lowercaseHexDigits) →
      ∀ c ∈ Nat.toDigitsCore 16 fuel n ds, c ∈ lowercaseHexDigits := by
  induction fuel with
  | zero => intro n ds hds c hc; exact hds c (by simpa [Nat.toDigitsCore] using hc)
  | succ fuel ih =>
    intro n ds hds c hc
    simp only [Nat.toDigitsCore] at hc
    by_cases hn : n / 16 = 0
    · rw [if_pos hn] at hc
      rcases List.mem_cons.mp hc with h | h
      · exact h ▸ digitChar_mem_lowercaseHex _ (Nat.mod_lt _ (by decide))
      · exact hds _ h
    · rw [if_neg hn] at hc
      refine ih (n / 16) (Nat.digitChar (n % 16) :: ds) ?_ c hc
      intro c2 hc2
      rcases List.mem_cons.mp hc2 with h | h
      · exact h ▸ digitChar_mem_lowercaseHex _ (Nat.mod_lt _ (by decide))
      · exact hds _ h

/-- Every character of a `hexByte` rendering is a lowercase hex digit. -/
theorem hexByte_chars (b : Nat) : ∀ c ∈ (hexByte b).data, c ∈ lowercaseHexDigits := by
  intro c hc
  have hsd : ∀ c2 ∈ ((Nat.toDigits 16 b).asString).data, c2 ∈ lowercaseHexDigits :=
    fun c2 hc2 => toDigitsCore_mem_lowercaseHex (b + 1) b []
      (fun x hx => absurd hx (List.not_mem_nil x)) c2 hc2
  simp only [hexByte] at hc
  split at hc
  · rw [String.data_append] at hc
    rcases List.mem_append.mp hc with h | h
    · have hc0 : c = '0' := by
        have h0 : ("0" : String).data = ['0'] := rfl
        rw [h0] at h
        simpa using h
      rw [hc0]; decide
    · exact hsd c h
  · exact hsd c hc

/-- Characters of a left fold of string concatenations, when the accumulator
and every piece carry only lowercase hex digit characters. -/
theorem foldl_append_chars (l : List String)
    (hl : ∀ s ∈ l, ∀ c ∈ s.data, c ∈ lowercaseHexDigits) :
    ∀ acc : String, (∀ c ∈ acc.data, c ∈ lowercaseHexDigits) →
      ∀ c ∈ (l.foldl (fun r s => r ++ s) acc).data, c ∈ lowercaseHexDigits := by
  induction l with
  | nil => intro acc hacc c hc; exact hacc c hc
  | cons s rest ih =>
    intro acc hacc c hc
    simp only [List.foldl_cons] at hc
    refine ih (fun s2 hs2 => hl s2 (List.mem_cons_of_mem s hs2)) (acc ++ s) ?_ c hc
    intro c2 hc2
    rw [String.data_append] at hc2
    rcases List.mem_append.mp hc2 with h | h
    · exact hacc c2 h
    · exact hl s (List.mem_cons_self s rest) c2 h

/-- Every character of the recomputed digest is a lowercase hex digit. -/
theorem hexOfBytes_chars (bs : List Nat) :
    ∀ c ∈ (hexOfBytes bs).data, c ∈ lowercaseHexDigits := by
  intro c hc
  simp only [hexOfBytes, String.join] at hc
  refine foldl_append_chars (bs.map hexByte) ?_ ""
    (fun c2 hc2 => by
      have h0 : ("" : String).data = [] := rfl
      rw [h0] at hc2
      cases hc2) c hc
  intro s hs c2 hc2
  rcases List.mem_map.mp hs with ⟨b, hb, rfl⟩
  exact hexByte_chars b c2 hc2

/-! Claim C2: expiry check. -/

/-- C2 counterexample: the claim says a token whose expiry equals the current
time exactly is rejected, but the source's check is `payload.exp < Date.now()`
(strict), so a correctly signed token with `exp` equal to the clock passes
verification. -/
theorem expiry_boundary_token_accepted :
    samplePayload1.exp = some boundaryEnv.now ∧
      verifyAdminToken boundaryEnv "PL1.ab" = some samplePayload1 :=
  ⟨rfl, by decide⟩

/-- C2 (amended): for every token whose payload `exp` is strictly less than
the current time, verification fails — regardless of the signature segment,
which is unconstrained here — and the handler answers 401 Invalid or expired
token without touching storage. -/
theorem strictly_expired_token_rejected (env : Env) (req : Request) (st : Storage)
    (t pb sig text : String) (p : AdminTokenPayload) (e : Int)
    (hreq : req.x_admin_token = some t)
    (hsplit : splitSegments t = some (pb, sig))
    (hatob : env.atobFn pb = some text)
    (hparse : env.parseJson text = some p)
    (hexp : p.exp = some e)
    (hlt : e < env.now) :
    verifyAdminToken env t = none ∧
      (serve env req st).1 = ⟨401, RespBody.err "Invalid or expired token"⟩ ∧
      (serve env req st).2 = st := by
  have hv : verifyAdminToken env t = none := by
    simp [verifyAdminToken, hsplit, hatob, hparse, expiredBefore, hexp, hlt]
  refine ⟨hv, ?_, ?_⟩ <;> simp [serve, hreq, hv]

/-- C2 witness: a concrete expired token (exp 1000, clock 2000) is rejected
with 401 and leaves the sample store unchanged. -/
theorem strictly_expired_token_rejected_witness :
    verifyAdminToken lateEnv "PL1.ab" = none ∧
      (serve lateEnv ⟨some "PL1.ab", "create", emptyData⟩ sampleStore).1 =
        ⟨401, RespBody.err "Invalid or expired token"⟩ ∧
      (serve lateEnv ⟨some "PL1.ab", "create", emptyData⟩ sampleStore).2 = sampleStore :=
  strictly_expired_token_rejected lateEnv ⟨some "PL1.ab", "create", emptyData⟩ sampleStore
    "PL1.ab" "PL1" "ab" "PL1" samplePayload1 1000
    rfl (by decide) (by decide) (by decide) rfl (by decide)

/-! Claim C9: totality of the verifier. -/

/-- C9 counterexample: the claim says decoded text that does not parse as the
AdminPrincipal structure yields null, but the source casts `JSON.parse`'s
result without runtime validation; a correctly signed token whose payload is
the empty JSON object (no `admin_id`, no `exp` — so the JavaScript comparison
`undefined < Date.now()` is false and the expiry check passes) is returned as
a principal rather than rejected. -/
theorem signed_empty_object_token_accepted :
    verifyAdminToken sampleEnv "EMPTY.ab" = some emptyPayload := by decide

/-- C9 (amended): the verifier never throws — each failure of the decoding
chain (missing or empty dot-segments, a base64 decode that throws, a JSON
parse that throws) is caught and yields null; structural validation of the
parsed object, however, is not performed. -/
theorem verify_null_on_decode_failure (env : Env) (t : String) :
    (splitSegments t = none → verifyAdminToken env t = none) ∧
    (∀ pb sig, splitSegments t = some (pb, sig) → env.atobFn pb = none →
      verifyAdminToken env t = none) ∧
    (∀ pb sig text, splitSegments t = some (pb, sig) → env.atobFn pb = some text →
      env.parseJson text = none → verifyAdminToken env t = none) :=
  ⟨fun h => by simp [verifyAdminToken, h],
   fun pb sig h1 h2 => by simp [verifyAdminToken, h1, h2],
   fun pb sig text h1 h2 h3 => by simp [verifyAdminToken, h1, h2, h3]⟩

/-- C9 witness: the three decode-failure branches on concrete tokens — no dot
segment, a segment whose base64 decode throws, and a decoded text whose JSON
parse throws — all yield null. -/
theorem verify_null_on_decode_failure_witness :
    verifyAdminToken sampleEnv "nodotsegment" = none ∧
    verifyAdminToken sampleEnv "BAD64.ab" = none ∧
    verifyAdminToken sampleEnv "JUNK.ab" = none :=
  ⟨(verify_null_on_decode_failure sampleEnv "nodotsegment").1 (by decide),
   (verify_null_on_decode_failure sampleEnv "BAD64.ab").2.1 "BAD64" "ab" (by decide) (by decide),
   (verify_null_on_decode_failure sampleEnv "JUNK.ab").2.2 "JUNK" "ab" "JUNK"
     (by decide) (by decide) (by decide)⟩

/-! Claim C1: division scope comes from the stored admin record. -/

/-- C1: after verification the handler reads only `admin_id` from the token
payload and takes the division scope from the stored AdminRecord, so two
requests that are identical except for the token payload's `division_id`
claim — each correctly signed and unexpired, hence verifying to payloads that
agree on everything but `division_id` — produce the same response and the
same storage. -/
theorem serve_division_scope_from_storage (env : Env) (req1 req2 : Request) (st : Storage)
    (t1 t2 : String) (p1 p2 : AdminTokenPayload)
    (h1 : req1.x_admin_token = some t1)
    (h2 : req2.x_admin_token = some t2)
    (hv1 : verifyAdminToken env t1 = some p1)
    (hv2 : verifyAdminToken env t2 = some p2)
    (hadmin : p1.admin_id = p2.admin_id)
    (_huser : p1.user_id = p2.user_id)
    (_hexp : p1.exp = p2.exp)
    (haction : req1.action = req2.action)
    (hdata : req1.data = req2.data) :
    serve env req1 st = serve env req2 st := by
  simp [serve, h1, h2, hv1, hv2, handleAuthed, hadmin, haction, hdata]

/-- C1 witness: two concrete update requests whose tokens carry `farmelife`
and `organelife` division claims for the same admin produce identical
results. -/
theorem serve_division_scope_from_storage_witness :
    serve sampleEnv ⟨some "PL1.ab", "update", ⟨some "mod-1", none, none, some true⟩⟩ sampleStore =
      serve sampleEnv ⟨some "PL2.ab", "update", ⟨some "mod-1", none, none, some true⟩⟩
        sampleStore :=
  serve_division_scope_from_storage sampleEnv
    ⟨some "PL1.ab", "update", ⟨some "mod-1", none, none, some true⟩⟩
    ⟨some "PL2.ab", "update", ⟨some "mod-1", none, none, some true⟩⟩ sampleStore
    "PL1.ab" "PL2.ab" samplePayload1 samplePayload2
    rfl rfl (by decide) (by decide) rfl rfl rfl rfl rfl

/-! Claim C4: cross-division update and delete are refused without mutation. -/

/-- C4: when the target module's program belongs to a division different from
the stored admin's division, both update and delete answer 403 and leave
storage — in particular the module record — entirely unchanged. -/
theorem wrong_division_update_delete_rejected (env : Env) (req : Request) (st : Storage)
    (t : String) (p : AdminTokenPayload) (admin : AdminRecord)
    (mid : String) (m : ProgramModule) (prog : Program)
    (hreq : req.x_admin_token = some t)
    (hv : verifyAdminToken env t = some p)
    (hadmin : lookupAdmin st p.admin_id = some admin)
    (hactive : admin.is_active = true)
    (haction : req.action = "update" ∨ req.action = "delete")
    (hid : req.data.id = some mid)
    (hm : findSingle (fun x => x.id == mid) st.program_modules = some m)
    (hprog : findSingle (fun x => x.id == m.program_id) st.programs = some prog)
    (hdiv : prog.division_id ≠ admin.division_id) :
    (serve env req st).1 =
      ⟨403, RespBody.err "You can only manage modules for programs in your division"⟩ ∧
      (serve env req st).2 = st := by
  have hacc : verifyProgramAccess st admin.division_id (some m.program_id) = false := by
    simp [verifyProgramAccess, hprog, hdiv]
  rcases haction with ha | ha
  · constructor <;>
      simp [serve, hreq, hv, handleAuthed, hadmin, hactive, dispatchAction, ha,
        handleUpdate, hid, hm, hacc]
  · constructor <;>
      simp [serve, hreq, hv, handleAuthed, hadmin, hactive, dispatchAction, ha,
        handleDelete, hid, hm, hacc]

/-- C4 witness: admin `adm-1` of division `farmelife` tries to update
`mod-2`, whose program `prog-2` belongs to `organelife`: 403 and the sample
store is unchanged. -/
theorem wrong_division_update_delete_rejected_witness :
    (serve sampleEnv ⟨some "PL1.ab", "update", ⟨some "mod-2", none, none, some false⟩⟩
        sampleStore).1 =
      ⟨403, RespBody.err "You can only manage modules for programs in your division"⟩ ∧
      (serve sampleEnv ⟨some "PL1.ab", "update", ⟨some "mod-2", none, none, some false⟩⟩
        sampleStore).2 = sampleStore :=
  wrong_division_update_delete_rejected sampleEnv
    ⟨some "PL1.ab", "update", ⟨some "mod-2", none, none, some false⟩⟩ sampleStore
    "PL1.ab" samplePayload1 ⟨"adm-1", true, "farmelife"⟩ "mod-2"
    ⟨"mod-2", "prog-2", "advertisement", true⟩ ⟨"prog-2", "organelife"⟩
    rfl (by decide) (by decide) rfl (Or.inl rfl) rfl (by decide) (by decide) (by decide)

/-! Claim C6: program authorization is by existence plus division equality. -/

/-- C6: `verifyProgramAccess` is true exactly when a program with the given
id exists (under the primary-key uniqueness of `programs.id`) and its
`division_id` equals the given division — a missing program is just false,
indistinguishable from a wrong-division program — and consequently a create
naming a program of a different division answers 403 and inserts nothing. -/
theorem authorize_program_iff_and_create_scope (env : Env) (req : Request) (st : Storage)
    (t : String) (p : AdminTokenPayload) (admin : AdminRecord)
    (d pid1 pid2 : String) (prog : Program)
    (hnodup : (st.programs.map Program.id).Nodup)
    (hreq : req.x_admin_token = some t)
    (hv : verifyAdminToken env t = some p)
    (hadmin : lookupAdmin st p.admin_id = some admin)
    (hactive : admin.is_active = true)
    (haction : req.action = "create")
    (hdata : req.data.program_id = some pid2)
    (hmem : prog ∈ st.programs)
    (hpid : prog.id = pid2)
    (hdiv : prog.division_id ≠ admin.division_id) :
    (verifyProgramAccess st d (some pid1) = true ↔
      ∃ q ∈ st.programs, q.id = pid1 ∧ q.division_id = d) ∧
    (serve env req st).1 =
      ⟨403, RespBody.err "You can only manage modules for programs in your division"⟩ ∧
    (serve env req st).2 = st := by
  have hiff : ∀ dd pp, (verifyProgramAccess st dd (some pp) = true ↔
      ∃ q ∈ st.programs, q.id = pp ∧ q.division_id = dd) := by
    intro dd pp
    constructor
    · intro h
      simp only [verifyProgramAccess] at h
      rcases hfs : findSingle (fun x => x.id == pp) st.programs with _ | q
      · rw [hfs] at h; simp at h
      · rw [hfs] at h
        have hq := findSingle_eq_some_imp _ _ _ hfs
        exact ⟨q, hq.1, by simpa using hq.2, by simpa using h⟩
    · rintro ⟨q, hqmem, hqid, hqd⟩
      have hfq : findSingle (fun x => x.id == pp) st.programs = some q :=
        (findSingle_key_some_iff Program.id st.programs hnodup pp q).mpr ⟨hqmem, hqid⟩
      simp [verifyProgramAccess, hfq, hqd]
  have hacc : verifyProgramAccess st admin.division_id (some pid2) = false := by
    rcases hb : verifyProgramAccess st admin.division_id (some pid2) with _ | _
    · rfl
    · rcases (hiff _ _).mp hb with ⟨q, hqmem, hqid, hqd⟩
      have hqprog : q = prog :=
        List.inj_on_of_nodup_map hnodup hqmem hmem (by rw [hqid, hpid])
      exact absurd (by rw [← hqprog]; exact hqd) hdiv
  refine ⟨hiff d pid1, ?_, ?_⟩ <;>
    simp [serve, hreq, hv, handleAuthed, hadmin, hactive, dispatchAction, haction,
      handleCreate, hdata, hacc]

/-- C6 witness: on the sample store, access to `prog-1` from `farmelife` is
characterized by the existence form, and admin `adm-1` (division `farmelife`)
creating a module under `prog-2` (division `organelife`) gets 403 with no row
inserted. -/
theorem authorize_program_iff_and_create_scope_witness :
    (verifyProgramAccess sampleStore "farmelife" (some "prog-1") = true ↔
      ∃ q ∈ sampleStore.programs, q.id = "prog-1" ∧ q.division_id = "farmelife") ∧
    (serve sampleEnv
        ⟨some "PL1.ab", "create", ⟨none, some "prog-2", some "registration", none⟩⟩
        sampleStore).1 =
      ⟨403, RespBody.err "You can only manage modules for programs in your division"⟩ ∧
    (serve sampleEnv
        ⟨some "PL1.ab", "create", ⟨none, some "prog-2", some "registration", none⟩⟩
        sampleStore).2 = sampleStore :=
  authorize_program_iff_and_create_scope sampleEnv
    ⟨some "PL1.ab", "create", ⟨none, some "prog-2", some "registration", none⟩⟩ sampleStore
    "PL1.ab" samplePayload1 ⟨"adm-1", true, "farmelife"⟩
    "farmelife" "prog-1" "prog-2" ⟨"prog-2", "organelife"⟩
    (by decide) rfl (by decide) (by decide) rfl rfl rfl (by decide) rfl (by decide)

/-! Claim C3: digest recomputation and byte-for-byte comparison. -/

/-- C3: on a token whose payload segment decodes and parses and whose expiry
check passes, the verifier returns the decoded principal only when the
supplied digest segment equals the recomputed
`hex(SHA-256(decoded_payload_text + secret))`; on any mismatch — in
particular after tampering with a payload byte so the decoded text no longer
matches the digest — it returns null and the handler answers 401 without
touching storage. -/
theorem signature_mismatch_rejected (env : Env) (req : Request) (st : Storage)
    (t pb sig text : String) (p : AdminTokenPayload)
    (hreq : req.x_admin_token = some t)
    (hsplit : splitSegments t = some (pb, sig))
    (hatob : env.atobFn pb = some text)
    (hparse : env.parseJson text = some p)
    (hfresh : expiredBefore p.exp env.now = false) :
    (∀ q, verifyAdminToken env t = some q →
      sig = hexOfBytes (env.sha256bytes (text ++ env.serviceKey)) ∧ q = p) ∧
    (sig ≠ hexOfBytes (env.sha256bytes (text ++ env.serviceKey)) →
      verifyAdminToken env t = none ∧
        (serve env req st).1 = ⟨401, RespBody.err "Invalid or expired token"⟩ ∧
        (serve env req st).2 = st) ∧
    (∀ c ∈ (hexOfBytes (env.sha256bytes (text ++ env.serviceKey))).data,
      c ∈ lowercaseHexDigits) := by
  refine ⟨?_, ?_, hexOfBytes_chars (env.sha256bytes (text ++ env.serviceKey))⟩
  · intro q hq
    simp only [verifyAdminToken, hsplit, hatob, hparse, hfresh, Bool.false_eq_true,
      if_false] at hq
    by_cases hs : sig = hexOfBytes (env.sha256bytes (text ++ env.serviceKey))
    · simp [hs] at hq
      exact ⟨hs, hq.symm⟩
    · simp [hs] at hq
  · intro hs
    have hv : verifyAdminToken env t = none := by
      simp [verifyAdminToken, hsplit, hatob, hparse, hfresh, hs]
    exact ⟨hv, by simp [serve, hreq, hv], by simp [serve, hreq, hv]⟩

/-- C3 witness: a concrete token carrying the digest `"xx"` where the
recomputed digest is `"ab"` is rejected with 401 and leaves the sample store
unchanged, and that recomputed digest is made of lowercase hex digits. -/
theorem signature_mismatch_rejected_witness :
    (verifyAdminToken sampleEnv "PL1.xx" = none ∧
      (serve sampleEnv ⟨some "PL1.xx", "delete", ⟨some "mod-1", none, none, none⟩⟩
          sampleStore).1 = ⟨401, RespBody.err "Invalid or expired token"⟩ ∧
      (serve sampleEnv ⟨some "PL1.xx", "delete", ⟨some "mod-1", none, none, none⟩⟩
          sampleStore).2 = sampleStore) ∧
    (∀ c ∈ (hexOfBytes (sampleEnv.sha256bytes ("PL1" ++ sampleEnv.serviceKey))).data,
      c ∈ lowercaseHexDigits) :=
  ⟨((signature_mismatch_rejected sampleEnv
      ⟨some "PL1.xx", "delete", ⟨some "mod-1", none, none, none⟩⟩ sampleStore
      "PL1.xx" "PL1" "xx" "PL1" samplePayload1
      rfl (by decide) (by decide) (by decide) (by decide)).2.1 (by decide)),
   (signature_mismatch_rejected sampleEnv
      ⟨some "PL1.xx", "delete", ⟨some "mod-1", none, none, none⟩⟩ sampleStore
      "PL1.xx" "PL1" "xx" "PL1" samplePayload1
      rfl (by decide) (by decide) (by decide) (by decide)).2.2⟩

/-! Claim C5: inactive or unknown admins are rejected before any action. -/

/-- C5: whenever the stored admin lookup fails or finds an inactive record,
the handler answers 401 Admin account not found or inactive and leaves
storage unchanged, for every action string, even though the presented token
verified successfully. -/
theorem inactive_or_unknown_admin_rejected (env : Env) (req : Request) (st : Storage)
    (t : String) (p : AdminTokenPayload)
    (hreq : req.x_admin_token = some t)
    (hv : verifyAdminToken env t = some p)
    (hadm : lookupAdmin st p.admin_id = none ∨
      ∃ a, lookupAdmin st p.admin_id = some a ∧ a.is_active = false) :
    (serve env req st).1 = ⟨401, RespBody.err "Admin account not found or inactive"⟩ ∧
      (serve env req st).2 = st := by
  rcases hadm with h | ⟨a, ha, hact⟩
  · constructor <;> simp [serve, hreq, hv, handleAuthed, h]
  · constructor <;> simp [serve, hreq, hv, handleAuthed, ha, hact]

/-- C5 witness: a correctly signed, unexpired token for the inactive admin
`adm-2` gets 401 on a delete request and the sample store is unchanged. -/
theorem inactive_or_unknown_admin_rejected_witness :
    (serve sampleEnv ⟨some "PL3.ab", "delete", ⟨some "mod-1", none, none, none⟩⟩
        sampleStore).1 = ⟨401, RespBody.err "Admin account not found or inactive"⟩ ∧
      (serve sampleEnv ⟨some "PL3.ab", "delete", ⟨some "mod-1", none, none, none⟩⟩
        sampleStore).2 = sampleStore :=
  inactive_or_unknown_admin_rejected sampleEnv
    ⟨some "PL3.ab", "delete", ⟨some "mod-1", none, none, none⟩⟩ sampleStore
    "PL3.ab" samplePayload3 rfl (by decide)
    (Or.inr ⟨⟨"adm-2", false, "farmelife"⟩, by decide, rfl⟩)

/-! Claim C7: missing module gives 404, after a genuine existence check. -/

/-- Update answers 404 exactly when no stored module matches the requested
id (under primary-key uniqueness of `program_modules.id`), and a 404 carries
the Module not found body and leaves storage unchanged. -/
theorem handleUpdate_not_found (st : Storage) (dv : String) (d : RequestData)
    (hnodup : (st.program_modules.map ProgramModule.id).Nodup) :
    ((handleUpdate st dv d).1.status = 404 ↔
      ¬ ∃ m ∈ st.program_modules, some m.id = d.id) ∧
    ((handleUpdate st dv d).1.status = 404 →
      (handleUpdate st dv d).1 = ⟨404, RespBody.err "Module not found"⟩ ∧
      (handleUpdate st dv d).2 = st) := by
  rcases hid : d.id with _ | mid
  · refine ⟨?_, fun _ => ⟨by simp [handleUpdate, hid], by simp [handleUpdate, hid]⟩⟩
    simp [handleUpdate, hid]
  · rcases hfs : findSingle (fun x => x.id == mid) st.program_modules with _ | m
    · have hnone : ¬ ∃ m ∈ st.program_modules, some m.id = some mid := by
        rintro ⟨m, hmem, hmid⟩
        exact (findSingle_key_none_iff ProgramModule.id st.program_modules hnodup mid).mp
          hfs m hmem (by simpa using hmid)
      have h404 : (handleUpdate st dv d).1 = ⟨404, RespBody.err "Module not found"⟩ := by
        simp [handleUpdate, hid, hfs]
      refine ⟨⟨fun _ => hnone, fun _ => by rw [h404]⟩,
        fun _ => ⟨h404, by simp [handleUpdate, hid, hfs]⟩⟩
    · have hex : ∃ m ∈ st.program_modules, some m.id = some mid := by
        have h := findSingle_eq_some_imp _ _ _ hfs
        exact ⟨m, h.1, by rw [(by simpa using h.2 : m.id = mid)]⟩
      have hstat : (handleUpdate st dv d).1.status ≠ 404 := by
        simp only [handleUpdate, hid, hfs]
        split
        · simp
        · split <;> simp
      exact ⟨⟨fun h => absurd h hstat, fun h => absurd hex h⟩, fun h => absurd h hstat⟩

/-- Delete answers 404 exactly when no stored module matches the requested
id (under primary-key uniqueness of `program_modules.id`), and a 404 carries
the Module not found body and leaves storage unchanged. -/
theorem handleDelete_not_found (st : Storage) (dv : String) (d : RequestData)
    (hnodup : (st.program_modules.map ProgramModule.id).Nodup) :
    ((handleDelete st dv d).1.status = 404 ↔
      ¬ ∃ m ∈ st.program_modules, some m.id = d.id) ∧
    ((handleDelete st dv d).1.status = 404 →
      (handleDelete st dv d).1 = ⟨404, RespBody.err "Module not found"⟩ ∧
      (handleDelete st dv d).2 = st) := by
  rcases hid : d.id with _ | mid
  · refine ⟨?_, fun _ => ⟨by simp [handleDelete, hid], by simp [handleDelete, hid]⟩⟩
    simp [handleDelete, hid]
  · rcases hfs : findSingle (fun x => x.id == mid) st.program_modules with _ | m
    · have hnone : ¬ ∃ m ∈ st.program_modules, some m.id = some mid := by
        rintro ⟨m, hmem, hmid⟩
        exact (findSingle_key_none_iff ProgramModule.id st.program_modules hnodup mid).mp
          hfs m hmem (by simpa using hmid)
      have h404 : (handleDelete st dv d).1 = ⟨404, RespBody.err "Module not found"⟩ := by
        simp [handleDelete, hid, hfs]
      refine ⟨⟨fun _ => hnone, fun _ => by rw [h404]⟩,
        fun _ => ⟨h404, by simp [handleDelete, hid, hfs]⟩⟩
    · have hex : ∃ m ∈ st.program_modules, some m.id = some mid := by
        have h := findSingle_eq_some_imp _ _ _ hfs
        exact ⟨m, h.1, by rw [(by simpa using h.2 : m.id = mid)]⟩
      have hstat : (handleDelete st dv d).1.status ≠ 404 := by
        simp only [handleDelete, hid, hfs]
        split <;> simp
      exact ⟨⟨fun h => absurd h hstat, fun h => absurd hex h⟩, fun h => absurd h hstat⟩

/-- C7: for an authenticated update or delete, the handler answers 404
exactly when no stored module matches the requested id — so the 404 is
distinct from the 403 scope failure and is produced only after the existence
check truly fails — and a 404 (in particular a delete of an already-deleted
id, which terminates normally rather than crashing) carries the Module not
found body and leaves storage unchanged. -/
theorem missing_module_not_found (env : Env) (req : Request) (st : Storage)
    (t : String) (p : AdminTokenPayload) (admin : AdminRecord)
    (hnodup : (st.program_modules.map ProgramModule.id).Nodup)
    (hreq : req.x_admin_token = some t)
    (hv : verifyAdminToken env t = some p)
    (hadmin : lookupAdmin st p.admin_id = some admin)
    (hactive : admin.is_active = true)
    (haction : req.action = "update" ∨ req.action = "delete") :
    ((serve env req st).1.status = 404 ↔
      ¬ ∃ m ∈ st.program_modules, some m.id = req.data.id) ∧
    ((serve env req st).1.status = 404 →
      (serve env req st).1 = ⟨404, RespBody.err "Module not found"⟩ ∧
      (serve env req st).2 = st) := by
  rcases haction with ha | ha
  · have hserve : serve env req st = handleUpdate st admin.division_id req.data := by
      simp [serve, hreq, hv, handleAuthed, hadmin, hactive, dispatchAction, ha]
    rw [hserve]
    exact handleUpdate_not_found st admin.division_id req.data hnodup
  · have hserve : serve env req st = handleDelete st admin.division_id req.data := by
      simp [serve, hreq, hv, handleAuthed, hadmin, hactive, dispatchAction, ha]
    rw [hserve]
    exact handleDelete_not_found st admin.division_id req.data hnodup

/-- C7 witness: deleting the absent module id `mod-gone` on the sample store
is characterized by the 404 iff, at a concrete input. -/
theorem missing_module_not_found_witness :
    ((serve sampleEnv ⟨some "PL1.ab", "delete", ⟨some "mod-gone", none, none, none⟩⟩
        sampleStore).1.status = 404 ↔
      ¬ ∃ m ∈ sampleStore.program_modules, some m.id = some "mod-gone") ∧
    ((serve sampleEnv ⟨some "PL1.ab", "delete", ⟨some "mod-gone", none, none, none⟩⟩
        sampleStore).1.status = 404 →
      (serve sampleEnv ⟨some "PL1.ab", "delete", ⟨some "mod-gone", none, none, none⟩⟩
          sampleStore).1 = ⟨404, RespBody.err "Module not found"⟩ ∧
      (serve sampleEnv ⟨some "PL1.ab", "delete", ⟨some "mod-gone", none, none, none⟩⟩
          sampleStore).2 = sampleStore) :=
  missing_module_not_found sampleEnv
    ⟨some "PL1.ab", "delete", ⟨some "mod-gone", none, none, none⟩⟩ sampleStore
    "PL1.ab" samplePayload1 ⟨"adm-1", true, "farmelife"⟩
    (by decide) rfl (by decide) (by decide) rfl (Or.inr rfl)

/-! Claim C8: the update is partial and touches only `is_published`. -/

/-- The partial update never changes a module's id. -/
theorem applyPartialUpdate_id (m : ProgramModule) (o : Option Bool) :
    (applyPartialUpdate m o).id = m.id := by cases o <;> rfl

/-- The partial update never changes a module's program. -/
theorem applyPartialUpdate_program_id (m : ProgramModule) (o : Option Bool) :
    (applyPartialUpdate m o).program_id = m.program_id := by cases o <;> rfl

/-- The partial update never changes a module's type. -/
theorem applyPartialUpdate_module_type (m : ProgramModule) (o : Option Bool) :
    (applyPartialUpdate m o).module_type = m.module_type := by cases o <;> rfl

/-- Filtering by a key after a key-preserving conditional rewrite is the
rewrite of the filtered rows. -/
theorem filter_map_key {α : Type} (key : α → String) (touch : α → α)
    (hkey : ∀ x, key (touch x) = key x) (i : String) (l : List α) :
    (l.map (fun x => if key x == i then touch x else x)).filter (fun x => key x == i) =
      (l.filter (fun x => key x == i)).map touch := by
  induction l with
  | nil => rfl
  | cons a as ih =>
    by_cases ha : (key a == i) = true
    · simp only [List.map_cons, List.filter_cons, ha, if_true, hkey, ih]
    · have ha2 : (key a == i) = false := by
        cases hb : (key a == i) with
        | false => rfl
        | true => exact absurd hb ha
      simp only [List.map_cons, List.filter_cons, ha2, if_false, Bool.false_eq_true, ih]

/-- C8: an authenticated, in-scope update applies exactly the partial update
object to the target row — `is_published` is written only when present in the
payload, no other field is ever written, and no other row or table is
touched — and returns the updated record. -/
theorem update_partial_frame (env : Env) (req : Request) (st : Storage)
    (t : String) (p : AdminTokenPayload) (admin : AdminRecord)
    (mid : String) (m : ProgramModule) (prog : Program)
    (hreq : req.x_admin_token = some t)
    (hv : verifyAdminToken env t = some p)
    (hadmin : lookupAdmin st p.admin_id = some admin)
    (hactive : admin.is_active = true)
    (haction : req.action = "update")
    (hid : req.data.id = some mid)
    (hm : findSingle (fun x => x.id == mid) st.program_modules = some m)
    (hprog : findSingle (fun x => x.id == m.program_id) st.programs = some prog)
    (hdiv : prog.division_id = admin.division_id) :
    (serve env req st).1 =
      ⟨200, RespBody.okModule (applyPartialUpdate m req.data.is_published)⟩ ∧
    (serve env req st).2 = { st with program_modules := (st.program_modules.map
        (fun x => if x.id == mid then applyPartialUpdate x req.data.is_published else x)) } ∧
    (applyPartialUpdate m req.data.is_published).id = m.id ∧
    (applyPartialUpdate m req.data.is_published).program_id = m.program_id ∧
    (applyPartialUpdate m req.data.is_published).module_type = m.module_type ∧
    (req.data.is_published = some true →
      (applyPartialUpdate m req.data.is_published).is_published = true) ∧
    (req.data.is_published = none → applyPartialUpdate m req.data.is_published = m) := by
  have hmid : (m.id == mid) = true := (findSingle_eq_some_imp _ _ _ hm).2
  have hacc : verifyProgramAccess st admin.division_id (some m.program_id) = true := by
    simp [verifyProgramAccess, hprog, hdiv]
  have hfilter : st.program_modules.filter (fun x => x.id == mid) = [m] := by
    have h2 := hm
    rw [findSingle, single_eq_some_iff] at h2
    exact h2
  have hupd : findSingle (fun x => x.id == mid)
      (st.program_modules.map
        (fun x => if x.id == mid then applyPartialUpdate x req.data.is_published else x)) =
      some (applyPartialUpdate m req.data.is_published) := by
    rw [findSingle,
      filter_map_key ProgramModule.id (fun x => applyPartialUpdate x req.data.is_published)
        (fun x => applyPartialUpdate_id x req.data.is_published) mid st.program_modules,
      hfilter]
    rfl
  have h12 : serve env req st =
      (⟨200, RespBody.okModule (applyPartialUpdate m req.data.is_published)⟩,
        { st with program_modules := (st.program_modules.map
            (fun x => if x.id == mid then applyPartialUpdate x req.data.is_published else x)) }) := by
    have hserve : serve env req st = handleUpdate st admin.division_id req.data := by
      simp [serve, hreq, hv, handleAuthed, hadmin, hactive, dispatchAction, haction]
    rw [hserve]
    simp only [handleUpdate, hid, hm]
    rw [if_neg (by simp [hacc])]
    rw [hupd]
  refine ⟨by rw [h12], by rw [h12], applyPartialUpdate_id m req.data.is_published,
    applyPartialUpdate_program_id m req.data.is_published,
    applyPartialUpdate_module_type m req.data.is_published, ?_, ?_⟩
  · intro h; simp [applyPartialUpdate, h]
  · intro h; simp [applyPartialUpdate, h]

/-- C8 witness: publishing `mod-1` (created unpublished) on the sample store
returns the same row with only `is_published` flipped to true. -/
theorem update_partial_frame_witness :
    (serve sampleEnv ⟨some "PL1.ab", "update", ⟨some "mod-1", none, none, some true⟩⟩
        sampleStore).1 =
      ⟨200, RespBody.okModule
        (applyPartialUpdate ⟨"mod-1", "prog-1", "announcement", false⟩ (some true))⟩ ∧
    (serve sampleEnv ⟨some "PL1.ab", "update", ⟨some "mod-1", none, none, some true⟩⟩
        sampleStore).2 =
      { sampleStore with program_modules := (sampleStore.program_modules.map
          (fun x => if x.id == "mod-1" then applyPartialUpdate x (some true) else x)) } ∧
    (applyPartialUpdate ⟨"mod-1", "prog-1", "announcement", false⟩ (some true)).id = "mod-1" ∧
    (applyPartialUpdate ⟨"mod-1", "prog-1", "announcement", false⟩ (some true)).program_id =
      "prog-1" ∧
    (applyPartialUpdate ⟨"mod-1", "prog-1", "announcement", false⟩ (some true)).module_type =
      "announcement" ∧
    (some true = some true →
      (applyPartialUpdate
        (⟨"mod-1", "prog-1", "announcement", false⟩ : ProgramModule) (some true)).is_published =
        true) ∧
    ((some true : Option Bool) = none →
      applyPartialUpdate ⟨"mod-1", "prog-1", "announcement", false⟩ (some true) =
        ⟨"mod-1", "prog-1", "announcement", false⟩) :=
  update_partial_frame sampleEnv
    ⟨some "PL1.ab", "update", ⟨some "mod-1", none, none, some true⟩⟩ sampleStore
    "PL1.ab" samplePayload1 ⟨"adm-1", true, "farmelife"⟩ "mod-1"
    ⟨"mod-1", "prog-1", "announcement", false⟩ ⟨"prog-1", "farmelife"⟩
    rfl (by decide) (by decide) rfl rfl rfl (by decide) (by decide) rfl

/-! Claim C10: the created row's publish flag is the or-with-false coercion. -/

/-- C10: an authorized create inserts exactly one row whose `is_published` is
`data.is_published || false`: absent or `false` gives an unpublished module,
`true` creates it already published. -/
theorem create_publish_coercion (env : Env) (req : Request) (st : Storage)
    (t : String) (p : AdminTokenPayload) (admin : AdminRecord)
    (pid mt : String)
    (hreq : req.x_admin_token = some t)
    (hv : verifyAdminToken env t = some p)
    (hadmin : lookupAdmin st p.admin_id = some admin)
    (hactive : admin.is_active = true)
    (haction : req.action = "create")
    (hpid : req.data.program_id = some pid)
    (hmt : req.data.module_type = some mt)
    (hacc : verifyProgramAccess st admin.division_id (some pid) = true) :
    (serve env req st).1 =
      ⟨200, RespBody.okModule ⟨genId st.fresh, pid, mt, jsOrFalse req.data.is_published⟩⟩ ∧
    (serve env req st).2 = { st with
      program_modules := st.program_modules ++
        [⟨genId st.fresh, pid, mt, jsOrFalse req.data.is_published⟩],
      fresh := st.fresh + 1 } ∧
    (req.data.is_published = none → jsOrFalse req.data.is_published = false) ∧
    (req.data.is_published = some false → jsOrFalse req.data.is_published = false) ∧
    (req.data.is_published = some true → jsOrFalse req.data.is_published = true) := by
  refine ⟨?_, ?_, ?_, ?_, ?_⟩
  · simp [serve, hreq, hv, handleAuthed, hadmin, hactive, dispatchAction, haction,
      handleCreate, hacc, hpid, hmt]
  · simp [serve, hreq, hv, handleAuthed, hadmin, hactive, dispatchAction, haction,
      handleCreate, hacc, hpid, hmt]
  · intro h; simp [jsOrFalse, h]
  · intro h; simp [jsOrFalse, h]
  · intro h; simp [jsOrFalse, h]

/-- C10 witness: admin `adm-1` creates a registration module under `prog-1`
with no `is_published` field: the inserted row `row-7` is unpublished. -/
theorem create_publish_coercion_witness :
    (serve sampleEnv ⟨some "PL1.ab", "create", ⟨none, some "prog-1", some "registration", none⟩⟩
        sampleStore).1 =
      ⟨200, RespBody.okModule ⟨genId sampleStore.fresh, "prog-1", "registration",
        jsOrFalse none⟩⟩ ∧
    (serve sampleEnv ⟨some "PL1.ab", "create", ⟨none, some "prog-1", some "registration", none⟩⟩
        sampleStore).2 = { sampleStore with
      program_modules := sampleStore.program_modules ++
        [⟨genId sampleStore.fresh, "prog-1", "registration", jsOrFalse none⟩],
      fresh := sampleStore.fresh + 1 } ∧
    ((none : Option Bool) = none → jsOrFalse none = false) ∧
    ((none : Option Bool) = some false → jsOrFalse none = false) ∧
    ((none : Option Bool) = some true → jsOrFalse none = true) :=
  create_publish_coercion sampleEnv
    ⟨some "PL1.ab", "create", ⟨none, some "prog-1", some "registration", none⟩⟩ sampleStore
    "PL1.ab" samplePayload1 ⟨"adm-1", true, "farmelife"⟩ "prog-1" "registration"
    rfl (by decide) (by decide) rfl rfl rfl rfl (by decide)

end AdminGateway
